import Mathlib

/-!
Shallow embedding of `src/PILFont.py` (balt-dev/PILFontParser): the binary
metrics codec of a legacy PIL bitmap font.  Byte streams are modelled as
`List Nat` (each element one byte value), machine 16-bit integers as `Int`
with explicit reduction modulo 2 ^ 16, and fallible operations return
`Except`/`Option` or carry an explicit success flag.  The PIL image
collaborator is abstracted to a record of dimensions and mode, and file
system effects to an explicit record of the two target files.
-/

/-- Equality of `Except` values is decidable when it is on both sides. -/
instance {ε α : Type} [DecidableEq ε] [DecidableEq α] : DecidableEq (Except ε α) :=
  fun x y =>
    match x, y with
    | .error e, .error f =>
      match decEq e f with
      | isTrue h => isTrue (h ▸ rfl)
      | isFalse h => isFalse fun c => h (Except.error.inj c)
    | .ok a, .ok b =>
      match decEq a b with
      | isTrue h => isTrue (h ▸ rfl)
      | isFalse h => isFalse fun c => h (Except.ok.inj c)
    | .error _, .ok _ => isFalse fun c => Except.noConfusion c
    | .ok _, .error _ => isFalse fun c => Except.noConfusion c

namespace PILFontModel

/-- The 14-byte magic literal b"PILfont\n;;;;;;" checked at offset 0 of a
metrics file (`PILFont.load`, first `_check_header` call). -/
def magic : List Nat := [80, 73, 76, 102, 111, 110, 116, 10, 59, 59, 59, 59, 59, 59]

/-- The 7-byte literal b";\nDATA\n" checked after the ysize text
(`PILFont.load`, second `_check_header` call). -/
def trailer : List Nat := [59, 10, 68, 65, 84, 65, 10]

/-- One glyph of the font, mirroring the `Glyph` dataclass: `character` is a
byte string, `delta` the advance pair, `src_bbox` the atlas crop box and
`dst_bbox` the paste box, in the dataclass field order. -/
structure Glyph where
  character : List Nat
  delta : Int × Int
  src_bbox : Int × Int × Int × Int
  dst_bbox : Int × Int × Int × Int
deriving DecidableEq

/-- Model of `Glyph.__iter__`: the flattened numeric fields in the order
`(*delta, *dst_bbox, *src_bbox)`. -/
def glyphFields (g : Glyph) : List Int :=
  [g.delta.1, g.delta.2,
   g.dst_bbox.1, g.dst_bbox.2.1, g.dst_bbox.2.2.1, g.dst_bbox.2.2.2,
   g.src_bbox.1, g.src_bbox.2.1, g.src_bbox.2.2.1, g.src_bbox.2.2.2]

/-- Whether a value fits a signed 16-bit integer: `struct.pack` with format
`h` raises `struct.error` outside this range. -/
def inRange16 (v : Int) : Bool := decide (-32768 ≤ v) && decide (v ≤ 32767)

/-- The two bytes of a signed 16-bit big-endian integer, as produced by
`struct.pack("!h", v)` for an in-range `v` (two's complement). -/
def packInt16 (v : Int) : List Nat :=
  [((v % 65536).toNat) / 256, ((v % 65536).toNat) % 256]

/-- The signed integer read from two big-endian bytes, as by
`struct.unpack("!h", ...)`. -/
def decodeInt16 (b0 b1 : Nat) : Int :=
  if b0 * 256 + b1 < 32768 then ((b0 * 256 + b1 : Nat) : Int)
  else ((b0 * 256 + b1 : Nat) : Int) - 65536

/-- Model of `struct.unpack("!10h", chunk)` on a 20-byte chunk: the ten signed
big-endian 16-bit integers.  (Only ever applied to 20-byte chunks; any
other shape yields `[]`.) -/
def unpack10h : List Nat → List Int
  | [b0, b1, b2, b3, b4, b5, b6, b7, b8, b9,
     b10, b11, b12, b13, b14, b15, b16, b17, b18, b19] =>
    [decodeInt16 b0 b1, decodeInt16 b2 b3, decodeInt16 b4 b5,
     decodeInt16 b6 b7, decodeInt16 b8 b9, decodeInt16 b10 b11,
     decodeInt16 b12 b13, decodeInt16 b14 b15, decodeInt16 b16 b17,
     decodeInt16 b18 b19]
  | _ => []

/-- The `Glyph(...)` construction in `PILFont.load`: the record index `i`
becomes the one-byte character `i.to_bytes(1, "little")`, and the ten
unpacked values `(dx, dy, dx0, dy0, dx1, dy1, sx0, sy0, sx1, sy1)` are
regrouped into delta, src box and dest box. -/
def mkGlyph (i : Nat) : List Int → Glyph
  | [dx, dy, dx0, dy0, dx1, dy1, sx0, sy0, sx1, sy1] =>
    ⟨[i], (dx, dy), (sx0, sy0, sx1, sy1), (dx0, dy0, dx1, dy1)⟩
  | _ => ⟨[i], (0, 0), (0, 0, 0, 0), (0, 0, 0, 0)⟩

/-- Decoding one 20-byte record at table index `i`. -/
def decodeRecord (i : Nat) (chunk : List Nat) : Glyph :=
  mkGlyph i (unpack10h chunk)

/-- The failure modes of `PILFont.load`, in the spec's taxonomy:
`headerMismatch` is the `PILFontParsingError` raised by `_check_header`
(carrying the stream offset of the checked literal, the expected bytes and
the bytes actually read), `malformedInteger` the `ValueError` from
`int(...)` on the ysize bytes, `truncatedRecord` the `struct.error` from
unpacking a non-empty chunk shorter than 20 bytes, and `charOverflow` the
`OverflowError` from `i.to_bytes(1, "little")` when `i` exceeds 255. -/
inductive LoadError where
  | headerMismatch (offset : Nat) (expected actual : List Nat)
  | malformedInteger (text : List Nat)
  | truncatedRecord (chunk : List Nat)
  | charOverflow (i : Nat)
deriving DecidableEq

/-- Whether a byte is ASCII whitespace for Python's `int()` parser. -/
def isPySpace (c : Nat) : Bool :=
  c == 32 || c == 9 || c == 10 || c == 11 || c == 12 || c == 13

/-- Whether a byte is an ASCII decimal digit. -/
def isAsciiDigit (c : Nat) : Bool := decide (48 ≤ c) && decide (c ≤ 57)

/-- Value of a digit run continuing `acc`, allowing single underscores
between digits, as Python's integer literal grammar does. -/
def digitsVal (acc : Nat) : List Nat → Option Nat
  | [] => some acc
  | c :: rest =>
    if isAsciiDigit c then digitsVal (acc * 10 + (c - 48)) rest
    else if c == 95 then
      match rest with
      | d :: rest2 =>
        if isAsciiDigit d then digitsVal (acc * 10 + (d - 48)) rest2 else none
      | [] => none
    else none

/-- A non-empty digit run (underscores only between digits). -/
def parseDigits : List Nat → Option Nat
  | [] => none
  | c :: rest => if isAsciiDigit c then digitsVal (c - 48) rest else none

/-- Python's `int(bs)` on an ASCII byte string: optional surrounding
whitespace, optional sign, then a non-empty digit run; anything else is a
`ValueError` (`none`). -/
def pyIntParse (bs : List Nat) : Option Int :=
  match ((bs.dropWhile isPySpace).reverse.dropWhile isPySpace).reverse with
  | 43 :: rest => (parseDigits rest).map (fun n => (n : Int))
  | 45 :: rest => (parseDigits rest).map (fun n => -(n : Int))
  | rest => (parseDigits rest).map (fun n => (n : Int))

/-- The record-reading loop of `PILFont.load`: repeatedly take 20-byte
chunks; an empty read ends the table, a short non-empty read is a
`struct.error`, and index 256 overflows `i.to_bytes(1, "little")` (the
unpack of a full chunk precedes the `to_bytes` call, so truncation is
detected before overflow). -/
def readGlyphs (i : Nat) : List Nat → Except LoadError (List Glyph)
  | [] => .ok []
  | b0 :: b1 :: b2 :: b3 :: b4 :: b5 :: b6 :: b7 :: b8 :: b9 ::
    b10 :: b11 :: b12 :: b13 :: b14 :: b15 :: b16 :: b17 :: b18 :: b19 :: rest =>
    if 256 ≤ i then .error (.charOverflow i)
    else
      (readGlyphs (i + 1) rest).map
        (fun gs =>
          mkGlyph i (unpack10h [b0, b1, b2, b3, b4, b5, b6, b7, b8, b9,
                                b10, b11, b12, b13, b14, b15, b16, b17, b18, b19]) :: gs)
  | short => .error (.truncatedRecord short)

/-- Model of `PILFont.load` on the bytes of the metrics file (the atlas collaborator
is out of the codec's scope): check the 14-byte magic at offset 0, read a
fixed 2-byte slot and parse it as the decimal `ysize`, check the
`b";\nDATA\n"` literal at the current offset, then read the records. -/
def load (s : List Nat) : Except LoadError (Int × List Glyph) :=
  let actual1 := s.take 14
  if actual1 ≠ magic then .error (.headerMismatch 0 magic actual1)
  else
    let s1 := s.drop 14
    let ysizeBytes := s1.take 2
    match pyIntParse ysizeBytes with
    | none => .error (.malformedInteger ysizeBytes)
    | some ysize =>
      let s2 := s1.drop 2
      let actual2 := s2.take 7
      if actual2 ≠ trailer then
        .error (.headerMismatch (14 + ysizeBytes.length) trailer actual2)
      else
        (readGlyphs 0 (s2.drop 7)).map (fun gs => (ysize, gs))

/-- Decimal ASCII digits of a natural number (fuel-indexed helper so the
definition is structural). -/
def natDigitsAux : Nat → Nat → List Nat
  | 0, _ => []
  | fuel + 1, n =>
    if n < 10 then [48 + n]
    else natDigitsAux fuel (n / 10) ++ [48 + n % 10]

/-- Decimal ASCII digits of a natural number, most significant first, no
leading zeros (`"0"` for zero). -/
def natDigits (n : Nat) : List Nat := natDigitsAux (n + 1) n

/-- Python's `str(v).encode("utf-8")` for an integer: decimal text of the
absolute value, preceded by `'-'` (byte 45) when negative. -/
def intStr (v : Int) : List Nat :=
  if v < 0 then 45 :: natDigits v.natAbs else natDigits v.toNat

/-- The 20 bytes `struct.pack("!10h", *glyph)` writes for an in-range
glyph: its ten flattened fields, each as a big-endian signed short. -/
def packRecord (g : Glyph) : List Nat := ((glyphFields g).map packInt16).flatten

/-- The record-writing loop of `PILFont.save`: bytes written and whether
the loop completed.  `struct.pack` checks all its arguments before
producing bytes, so an out-of-range field aborts with nothing written for
that record (a `struct.error`), after the bytes of the previous records. -/
def writeRecords : List Glyph → List Nat × Bool
  | [] => ([], true)
  | g :: gs =>
    if (glyphFields g).all inRange16 then
      let r := writeRecords gs
      (packRecord g ++ r.1, r.2)
    else ([], false)

/-- The bytes `PILFont.save` leaves in the metrics file, and whether the
write ran to completion: magic literal, decimal ysize text, `b";\nDATA\n"`,
then the encoded records. -/
def metricsBytes (ysize : Int) (glyphs : List Glyph) : List Nat × Bool :=
  let r := writeRecords glyphs
  (magic ++ intStr ysize ++ (trailer ++ r.1), r.2)

/-- Decoding a list of 20-byte chunks starting at table index `i`: the
glyph table the record loop builds from those chunks. -/
def decodeChunks (i : Nat) : List (List Nat) → List Glyph
  | [] => []
  | c :: cs => decodeRecord i c :: decodeChunks (i + 1) cs

/-- The glyph atlas image, abstracted to the capabilities the codec uses:
pixel dimensions and color mode (pixel decoding is delegated to PIL and out
of scope). -/
structure Image where
  width : Nat
  height : Nat
  mode : List Nat
deriving DecidableEq

/-- The `PILFont` dataclass: atlas image, line height `ysize`, and the
glyph table (index = character code). -/
structure PILFont where
  atlas : Image
  ysize : Int
  glyphs : List Glyph
deriving DecidableEq

/-- The `IndexError` raised by Python list subscription out of range. -/
inductive GetItemError where
  | indexOutOfRange
deriving DecidableEq

/-- Python list index resolution: a negative index counts from the end. -/
def pyIndex (len : Nat) (index : Int) : Int :=
  if index < 0 then index + len else index

/-- Model of `PILFont.__getitem__`: `self.glyphs[index]` with Python list
subscription semantics (negative indices wrap once; a resolved index
outside `[0, len)` raises `IndexError`). -/
def PILFont.getitem (f : PILFont) (index : Int) : Except GetItemError Glyph :=
  if h : 0 ≤ pyIndex f.glyphs.length index ∧
         pyIndex f.glyphs.length index < (f.glyphs.length : Int) then
    .ok (f.glyphs.get ⟨(pyIndex f.glyphs.length index).toNat, by omega⟩)
  else .error .indexOutOfRange

/-- The state of the two files `PILFont.save` may touch: the contents of
the metrics file at `metrics_path` and the atlas image at `image_path`
(`none` = file absent). -/
structure FS where
  metricsFile : Option (List Nat)
  atlasFile : Option Image
deriving DecidableEq

/-- Failures of `PILFont.save`: the backend-native error from
`self.atlas.save(...)`, or the `struct.error` from packing an out-of-range
field. -/
inductive SaveError where
  | imageSaveError
  | structError
deriving DecidableEq

/-- Model of `PILFont.save` as a transition on the file state, mirroring the
statement order of the source: when `withImagePath` (an `image_path` was
supplied), `self.atlas.save(image_path)` runs first — if it fails
(`atlasSaveOk = false`) the exception propagates before the metrics file is
opened; otherwise `open(metrics_path, "wb+")` truncates/creates the metrics
file and the header and records are written, a `struct.error` leaving the
partial bytes behind. -/
def PILFont.saveFS (f : PILFont) (withImagePath atlasSaveOk : Bool) (fs : FS) :
    FS × Option SaveError :=
  if withImagePath && !atlasSaveOk then (fs, some .imageSaveError)
  else
    let fs1 := if withImagePath then { fs with atlasFile := some f.atlas } else fs
    let r := metricsBytes f.ysize f.glyphs
    ({ fs1 with metricsFile := some r.1 }, if r.2 then none else some .structError)

/-! ### Concrete example inputs -/

/-- First glyph of the spec's example scenario: advance `(6, 0)`, dest box
`(0, -16, 6, 0)`, src box `(0, 0, 6, 16)`, character code 0. -/
def exampleGlyph0 : Glyph := ⟨[0], (6, 0), (0, 0, 6, 16), (0, -16, 6, 0)⟩

/-- Second glyph of the spec's example scenario: advance `(6, 0)`, dest box
`(0, -16, 6, 0)`, src box `(6, 0, 12, 16)`, character code 1. -/
def exampleGlyph1 : Glyph := ⟨[1], (6, 0), (6, 0, 12, 16), (0, -16, 6, 0)⟩

/-- The two-glyph table of the spec's example scenario. -/
def exampleTable : List Glyph := [exampleGlyph0, exampleGlyph1]

/-- The exact byte stream the example scenario expects:
`b"PILfont\n;;;;;;"`, `b"20"`, `b";\nDATA\n"`, then 40 bytes of big-endian
signed shorts. -/
def exampleStream : List Nat :=
  [80, 73, 76, 102, 111, 110, 116, 10, 59, 59, 59, 59, 59, 59,
   50, 48,
   59, 10, 68, 65, 84, 65, 10,
   0, 6, 0, 0, 0, 0, 255, 240, 0, 6, 0, 0, 0, 0, 0, 0, 0, 6, 0, 16,
   0, 6, 0, 0, 0, 0, 255, 240, 0, 6, 0, 0, 0, 6, 0, 0, 0, 12, 0, 16]

/-- A minimal well-formed metrics stream: valid header, ysize 20, no
records. -/
def validStreamEx : List Nat := magic ++ [50, 48] ++ trailer

/-- A 20-byte record of zero bytes. -/
def zeroChunk : List Nat := List.replicate 20 0

/-- 257 complete zero records: one more than the character byte can
index. -/
def bigChunks : List (List Nat) := List.replicate 257 zeroChunk

/-- A one-glyph font used to exercise `__getitem__`. -/
def exampleFont : PILFont := ⟨⟨12, 16, []⟩, 20, [exampleGlyph0]⟩

/-! ### Supporting lemmas -/

/-- A list of 20 bytes is an explicit 20-element list. -/
theorem exists_len20 (c : List Nat) (h : c.length = 20) :
    ∃ b0 b1 b2 b3 b4 b5 b6 b7 b8 b9 b10 b11 b12 b13 b14 b15 b16 b17 b18 b19,
      c = [b0, b1, b2, b3, b4, b5, b6, b7, b8, b9,
           b10, b11, b12, b13, b14, b15, b16, b17, b18, b19] := by
  obtain _ | ⟨b0, c⟩ := c
  · simp at h
  obtain _ | ⟨b1, c⟩ := c
  · simp at h
  obtain _ | ⟨b2, c⟩ := c
  · simp at h
  obtain _ | ⟨b3, c⟩ := c
  · simp at h
  obtain _ | ⟨b4, c⟩ := c
  · simp at h
  obtain _ | ⟨b5, c⟩ := c
  · simp at h
  obtain _ | ⟨b6, c⟩ := c
  · simp at h
  obtain _ | ⟨b7, c⟩ := c
  · simp at h
  obtain _ | ⟨b8, c⟩ := c
  · simp at h
  obtain _ | ⟨b9, c⟩ := c
  · simp at h
  obtain _ | ⟨b10, c⟩ := c
  · simp at h
  obtain _ | ⟨b11, c⟩ := c
  · simp at h
  obtain _ | ⟨b12, c⟩ := c
  · simp at h
  obtain _ | ⟨b13, c⟩ := c
  · simp at h
  obtain _ | ⟨b14, c⟩ := c
  · simp at h
  obtain _ | ⟨b15, c⟩ := c
  · simp at h
  obtain _ | ⟨b16, c⟩ := c
  · simp at h
  obtain _ | ⟨b17, c⟩ := c
  · simp at h
  obtain _ | ⟨b18, c⟩ := c
  · simp at h
  obtain _ | ⟨b19, c⟩ := c
  · simp at h
  obtain _ | ⟨b20, c⟩ := c
  · exact ⟨b0, b1, b2, b3, b4, b5, b6, b7, b8, b9,
           b10, b11, b12, b13, b14, b15, b16, b17, b18, b19, rfl⟩
  · simp at h

/-- One step of the record loop on a full 20-byte chunk. -/
theorem readGlyphs_cons20 (i : Nat) (c rest : List Nat) (hc : c.length = 20) :
    readGlyphs i (c ++ rest) =
      if 256 ≤ i then .error (.charOverflow i)
      else (readGlyphs (i + 1) rest).map (fun gs => mkGlyph i (unpack10h c) :: gs) := by
  obtain ⟨b0, b1, b2, b3, b4, b5, b6, b7, b8, b9,
          b10, b11, b12, b13, b14, b15, b16, b17, b18, b19, rfl⟩ := exists_len20 c hc
  simp only [List.cons_append, List.nil_append]
  rw [readGlyphs]

/-- A final non-empty chunk shorter than 20 bytes is a truncated record. -/
theorem readGlyphs_short (i : Nat) (s : List Nat) (h1 : s ≠ []) (h2 : s.length < 20) :
    readGlyphs i s = .error (.truncatedRecord s) := by
  rw [readGlyphs.eq_def]
  split
  · simp at h1
  · rename_i b0 b1 b2 b3 b4 b5 b6 b7 b8 b9 b10 b11 b12 b13 b14 b15 b16 b17 b18 b19 rest
    simp at h2
    omega
  · rfl

/-- Function `decodeChunks` yields one glyph per chunk. -/
theorem decodeChunks_length (cs : List (List Nat)) (i : Nat) :
    (decodeChunks i cs).length = cs.length := by
  induction cs generalizing i with
  | nil => rfl
  | cons c cs ih => simp [decodeChunks, ih]

/-- Function `mkGlyph` always stores the one-byte character `[i]`, whatever the
field list. -/
theorem mkGlyph_character (i : Nat) (fs : List Int) : (mkGlyph i fs).character = [i] := by
  rw [mkGlyph.eq_def]
  split <;> rfl

/-- The glyph decoded from the chunk at position `j` carries character
code `i + j`. -/
theorem decodeChunks_character (cs : List (List Nat)) (i j : Nat)
    (h : j < (decodeChunks i cs).length) :
    ((decodeChunks i cs).get ⟨j, h⟩).character = [i + j] := by
  induction cs generalizing i j with
  | nil => simp [decodeChunks] at h
  | cons c cs ih =>
    match j with
    | 0 => simpa [decodeChunks, decodeRecord] using mkGlyph_character i (unpack10h c)
    | j + 1 =>
      have h2 : j < (decodeChunks (i + 1) cs).length := by
        simpa [decodeChunks] using h
      have := ih (i + 1) j h2
      simp only [decodeChunks, List.get_cons_succ]
      rw [this]
      congr 1
      omega

/-- Running the record loop over a block of complete 20-byte chunks that
stays below the 256-glyph character limit decodes exactly those chunks and
continues on the remainder. -/
theorem readGlyphs_chunks (cs : List (List Nat)) (i : Nat) (rest : List Nat)
    (hlen : ∀ c ∈ cs, c.length = 20) (hbound : i + cs.length ≤ 256) :
    readGlyphs i (cs.flatten ++ rest) =
      (readGlyphs (i + cs.length) rest).map (fun t => decodeChunks i cs ++ t) := by
  induction cs generalizing i with
  | nil =>
    simp only [List.flatten_nil, List.nil_append, List.length_nil, Nat.add_zero, decodeChunks]
    cases readGlyphs i rest <;> simp [Except.map]
  | cons c cs ih =>
    simp only [List.flatten_cons, List.append_assoc]
    have hc : c.length = 20 := hlen c (by simp)
    have hi : ¬ 256 ≤ i := by
      simp only [List.length_cons] at hbound
      omega
    rw [readGlyphs_cons20 i c (cs.flatten ++ rest) hc, if_neg hi,
        ih (i + 1) (fun d hd => hlen d (by simp [hd])) (by simp at hbound ⊢; omega)]
    have harith : i + 1 + cs.length = i + (c :: cs).length := by simp; omega
    rw [harith]
    cases readGlyphs (i + (c :: cs).length) rest <;>
      simp [Except.map, decodeChunks, decodeRecord]


/-- Loading a stream with a well-formed header (magic, a parseable 2-byte
ysize text, the trailer) reduces to the record loop on the body. -/
theorem load_valid_header (ys : List Nat) (y : Int) (body : List Nat)
    (h2 : ys.length = 2) (hp : pyIntParse ys = some y) :
    load (magic ++ (ys ++ (trailer ++ body))) =
      (readGlyphs 0 body).map (fun gs => (y, gs)) := by
  have t1 : (magic ++ (ys ++ (trailer ++ body))).take 14 = magic :=
    List.take_left' (by rfl)
  have d1 : (magic ++ (ys ++ (trailer ++ body))).drop 14 = ys ++ (trailer ++ body) :=
    List.drop_left' (by rfl)
  have t2 : (ys ++ (trailer ++ body)).take 2 = ys := List.take_left' h2
  have d2 : (ys ++ (trailer ++ body)).drop 2 = trailer ++ body := List.drop_left' h2
  have t3 : (trailer ++ body).take 7 = trailer := List.take_left' (by rfl)
  have d3 : (trailer ++ body).drop 7 = body := List.drop_left' (by rfl)
  simp [load, t1, d1, t2, d2, t3, d3, hp]

/-- A successful record loop starting at index `i` yields at most
`256 - i` glyphs (index 256 always overflows). -/
theorem readGlyphs_ok_length (i : Nat) (s : List Nat) :
    ∀ gs, readGlyphs i s = .ok gs → gs.length ≤ 256 - i := by
  induction i, s using readGlyphs.induct with
  | case1 i =>
    intro gs h
    simp only [readGlyphs] at h
    cases h
    simp
  | case2 i b0 b1 b2 b3 b4 b5 b6 b7 b8 b9 b10 b11 b12 b13 b14 b15 b16 b17 b18 b19 rest hge =>
    intro gs h
    simp only [readGlyphs, if_pos hge] at h
    cases h
  | case3 i b0 b1 b2 b3 b4 b5 b6 b7 b8 b9 b10 b11 b12 b13 b14 b15 b16 b17 b18 b19 rest hlt ih =>
    intro gs h
    simp only [readGlyphs, if_neg hlt] at h
    cases hr : readGlyphs (i + 1) rest with
    | error e => rw [hr] at h; cases h
    | ok gs2 =>
      rw [hr] at h
      cases h
      have := ih gs2 hr
      simp only [List.length_cons]
      omega
  | case4 i short hne hns =>
    intro gs h
    rw [readGlyphs.eq_def] at h
    split at h
    · cases h
      simp
    · rename_i b0 b1 b2 b3 b4 b5 b6 b7 b8 b9 b10 b11 b12 b13 b14 b15 b16 b17 b18 b19 rest
      exact absurd rfl (by exact fun hc => hns b0 b1 b2 b3 b4 b5 b6 b7 b8 b9 b10 b11 b12 b13 b14 b15 b16 b17 b18 b19 rest hc)
    · cases h

/-- With more than 256 complete records after a valid header, the record
loop dies converting index 256 to a single byte. -/
theorem load_overflow (ys : List Nat) (y : Int) (cs : List (List Nat)) (rest : List Nat)
    (h2 : ys.length = 2) (hp : pyIntParse ys = some y)
    (hlen : ∀ c ∈ cs, c.length = 20) (hN : 256 < cs.length) :
    load (magic ++ (ys ++ (trailer ++ (cs.flatten ++ rest)))) =
      .error (.charOverflow 256) := by
  rw [load_valid_header ys y _ h2 hp]
  have hsplit : cs.flatten = (cs.take 256).flatten ++ (cs.drop 256).flatten := by
    rw [← List.flatten_append, List.take_append_drop]
  obtain ⟨c, cs2, hdrop⟩ : ∃ c cs2, cs.drop 256 = c :: cs2 := by
    have hd256 := List.length_drop 256 cs
    cases hd : cs.drop 256 with
    | nil => rw [hd] at hd256; simp at hd256; omega
    | cons c cs2 => exact ⟨c, cs2, rfl⟩
  have h256 : (cs.take 256).length = 256 := by
    simp [List.length_take]
    omega
  rw [hsplit, hdrop, List.append_assoc,
      readGlyphs_chunks (cs.take 256) 0 _
        (fun c hc => hlen c (List.take_subset _ _ hc)) (by omega)]
  have hcmem : c ∈ cs := List.drop_subset _ _ (hdrop ▸ List.mem_cons_self c cs2)
  simp only [List.flatten_cons, List.append_assoc, h256, Nat.zero_add]
  rw [readGlyphs_cons20 256 c _ (hlen c hcmem), if_pos (by omega)]
  simp [Except.map]

/-- For `10 ≤ y ≤ 99` the decimal text of `y` is exactly two bytes and
parses back to `y`. -/
theorem intStr_two_digit (y : Int) (hy1 : 10 ≤ y) (hy2 : y ≤ 99) :
    (intStr y).length = 2 ∧ pyIntParse (intStr y) = some y := by
  obtain ⟨n, rfl⟩ : ∃ n : Nat, y = (n : Int) := ⟨y.toNat, by omega⟩
  have hn1 : 10 ≤ n := by exact_mod_cast hy1
  have hn2 : n ≤ 99 := by exact_mod_cast hy2
  interval_cases n <;> exact ⟨by decide, by decide⟩

/-- Decoding the two packed bytes of an in-range value recovers it. -/
theorem decodeInt16_packInt16 (v : Int) (h : inRange16 v = true) :
    decodeInt16 ((v % 65536).toNat / 256) ((v % 65536).toNat % 256) = v := by
  simp only [inRange16, Bool.and_eq_true, decide_eq_true_eq] at h
  unfold decodeInt16
  split <;> omega

/-- Rebuilding a glyph from its own flattened fields only replaces the
character byte string. -/
theorem mkGlyph_glyphFields (i : Nat) (g : Glyph) :
    mkGlyph i (glyphFields g) = { g with character := [i] } := by
  obtain ⟨c, ⟨d1, d2⟩, ⟨s0, s1, s2, s3⟩, ⟨t0, t1, t2, t3⟩⟩ := g
  rfl

/-- An encoded record is exactly 20 bytes. -/
theorem packRecord_length (g : Glyph) : (packRecord g).length = 20 := by
  obtain ⟨c, ⟨d1, d2⟩, ⟨s0, s1, s2, s3⟩, ⟨t0, t1, t2, t3⟩⟩ := g
  rfl

/-- Unpacking an encoded record recovers the ten fields. -/
theorem unpack10h_packRecord (g : Glyph) (h : (glyphFields g).all inRange16 = true) :
    unpack10h (packRecord g) = glyphFields g := by
  obtain ⟨c, ⟨d1, d2⟩, ⟨s0, s1, s2, s3⟩, ⟨t0, t1, t2, t3⟩⟩ := g
  simp only [glyphFields, List.all_cons, List.all_nil, Bool.and_eq_true] at h
  obtain ⟨h0, h1, h2, h3, h4, h5, h6, h7, h8, h9, -⟩ := h
  simp only [packRecord, glyphFields, List.map_cons, List.map_nil, packInt16,
    List.flatten_cons, List.flatten_nil, List.cons_append, List.nil_append,
    List.append_nil, unpack10h]
  rw [decodeInt16_packInt16 _ h0, decodeInt16_packInt16 _ h1,
      decodeInt16_packInt16 _ h2, decodeInt16_packInt16 _ h3,
      decodeInt16_packInt16 _ h4, decodeInt16_packInt16 _ h5,
      decodeInt16_packInt16 _ h6, decodeInt16_packInt16 _ h7,
      decodeInt16_packInt16 _ h8, decodeInt16_packInt16 _ h9]

/-- When every field of every glyph is 16-bit-representable, the record
loop of `save` writes all records and completes. -/
theorem writeRecords_complete (gs : List Glyph)
    (h : ∀ g ∈ gs, (glyphFields g).all inRange16 = true) :
    writeRecords gs = ((gs.map packRecord).flatten, true) := by
  induction gs with
  | nil => rfl
  | cons g gs ih =>
    simp only [writeRecords, h g (by simp), if_true,
      ih (fun g hg => h g (by simp [hg])), List.map_cons, List.flatten_cons]

/-- Decoding the encoded records of a table whose characters are the
positional bytes starting at `i` reproduces the table. -/
theorem decodeChunks_packRecords (gs : List Glyph) (i : Nat)
    (hr : ∀ g ∈ gs, (glyphFields g).all inRange16 = true)
    (hc : ∀ j (hj : j < gs.length), (gs.get ⟨j, hj⟩).character = [i + j]) :
    decodeChunks i (gs.map packRecord) = gs := by
  induction gs generalizing i with
  | nil => rfl
  | cons g gs ih =>
    simp only [List.map_cons, decodeChunks, decodeRecord]
    rw [unpack10h_packRecord g (hr g (by simp)), mkGlyph_glyphFields]
    have hg0 : g.character = [i] := by
      have := hc 0 (by simp)
      simpa using this
    congr 1
    · obtain ⟨c, d, s, t⟩ := g
      simp only at hg0
      simp [hg0]
    · refine ih (i + 1) (fun g hg => hr g (by simp [hg])) (fun j hj => ?_)
      have := hc (j + 1) (by simpa using Nat.succ_lt_succ hj)
      simp only [List.get_cons_succ] at this
      have harith : i + 1 + j = i + (j + 1) := by omega
      rw [harith]
      exact this

/-! ### Claims -/

/-- C1 counterexample: ysize 5 satisfies the claim's precondition
(`ysize ≥ 0`, empty table), `save` writes a well-formed single-digit ysize
text, yet `load` of the result fails: the fixed 2-byte ysize read picks up
`b"5;"`, which is not a parseable integer. -/
theorem C1_counterexample :
    (0 : Int) ≤ 5 ∧
    metricsBytes 5 [] =
      ([80, 73, 76, 102, 111, 110, 116, 10, 59, 59, 59, 59, 59, 59,
        53, 59, 10, 68, 65, 84, 65, 10], true) ∧
    load (metricsBytes 5 []).1 = .error (.malformedInteger [53, 59]) := by
  refine ⟨by decide, by decide, by decide⟩

/-- C1 (amended): for a ysize whose decimal text is exactly two bytes
(`10 ≤ ysize ≤ 99`) and a table of at most 256 glyphs whose numeric fields
are 16-bit-representable and whose glyph at index `j` carries the
positional character byte `j`, `save` completes and `load` of the written
stream reproduces the ysize and the table field-for-field. -/
theorem C1_save_load_roundtrip (ysize : Int) (gs : List Glyph)
    (hy1 : 10 ≤ ysize) (hy2 : ysize ≤ 99)
    (hr : ∀ g ∈ gs, (glyphFields g).all inRange16 = true)
    (hn : gs.length ≤ 256)
    (hc : ∀ j (hj : j < gs.length), (gs.get ⟨j, hj⟩).character = [j]) :
    (metricsBytes ysize gs).2 = true ∧
    load (metricsBytes ysize gs).1 = .ok (ysize, gs) := by
  obtain ⟨hlen2, hparse⟩ := intStr_two_digit ysize hy1 hy2
  have hw := writeRecords_complete gs hr
  constructor
  · simp [metricsBytes, hw]
  · have hshape : (metricsBytes ysize gs).1 =
        magic ++ (intStr ysize ++ (trailer ++ ((gs.map packRecord).flatten ++ []))) := by
      simp [metricsBytes, hw]
    rw [hshape, load_valid_header _ ysize _ hlen2 hparse,
        readGlyphs_chunks (gs.map packRecord) 0 []
          (by
            intro c hcm
            obtain ⟨g, -, rfl⟩ := List.mem_map.mp hcm
            exact packRecord_length g)
          (by simp [List.length_map]; omega)]
    have hdec : decodeChunks 0 (gs.map packRecord) = gs :=
      decodeChunks_packRecords gs 0 hr (fun j hj => by simpa using hc j hj)
    simp [readGlyphs, Except.map, hdec]

/-- C1 witness: the round trip at ysize 20 on the two-glyph example
table. -/
theorem C1_save_load_roundtrip_witness :
    (metricsBytes 20 exampleTable).2 = true ∧
    load (metricsBytes 20 exampleTable).1 = .ok (20, exampleTable) :=
  C1_save_load_roundtrip 20 exampleTable (by decide) (by decide)
    (by intro g hg; fin_cases hg <;> decide)
    (by decide)
    (by intro j hj; simp only [exampleTable, List.length_cons, List.length_nil] at hj; interval_cases j <;> rfl)

/-- C2 counterexample: mutating byte 5 of the magic in a valid stream does
fail, but the `HeaderMismatchError` carries offset 0 (the start of the
checked literal), not the offset 5 of the mutated byte. -/
theorem C2_counterexample :
    load validStreamEx = .ok (20, []) ∧
    load (validStreamEx.set 5 88) =
      .error (.headerMismatch 0 magic
        [80, 73, 76, 102, 111, 88, 116, 10, 59, 59, 59, 59, 59, 59]) ∧
    (0 : Nat) ≠ 5 := by
  refine ⟨by decide, by decide, by decide⟩

/-- C2 (amended): corrupting the 14-byte magic block (any 14-byte block
other than the magic) fails with a `HeaderMismatchError` carrying offset 0,
the expected magic and the 14 bytes read; corrupting the 7-byte trailing
literal fails with a `HeaderMismatchError` carrying offset 16 (the start of
that literal after the 2-byte ysize slot), the expected literal and the 7
bytes read.  The reported offset is the start of the mismatched literal,
not the position of the individual mutated byte. -/
theorem C2_header_mutation :
    (∀ (m rest : List Nat), m.length = 14 → m ≠ magic →
      load (m ++ rest) = .error (.headerMismatch 0 magic m)) ∧
    (∀ (ys t body : List Nat) (y : Int),
      ys.length = 2 → pyIntParse ys = some y → t.length = 7 → t ≠ trailer →
      load (magic ++ (ys ++ (t ++ body))) =
        .error (.headerMismatch 16 trailer t)) := by
  constructor
  · intro m rest h14 hne
    have t1 : (m ++ rest).take 14 = m := List.take_left' h14
    simp [load, t1, hne]
  · intro ys t body y h2 hp h7 hne
    have t1 : (magic ++ (ys ++ (t ++ body))).take 14 = magic := List.take_left' (by rfl)
    have d1 : (magic ++ (ys ++ (t ++ body))).drop 14 = ys ++ (t ++ body) :=
      List.drop_left' (by rfl)
    have t2 : (ys ++ (t ++ body)).take 2 = ys := List.take_left' h2
    have d2 : (ys ++ (t ++ body)).drop 2 = t ++ body := List.drop_left' h2
    have t3 : (t ++ body).take 7 = t := List.take_left' h7
    simp [load, t1, d1, t2, d2, t3, hp, hne, h2]

/-- C2 witness: a magic block with byte 5 replaced by `88` reports offset
0 with the mutated block; a trailer with byte 2 replaced by `88` reports
offset 16 with the mutated trailer. -/
theorem C2_header_mutation_witness :
    load (magic.set 5 88 ++ ([50, 48] ++ trailer)) =
      .error (.headerMismatch 0 magic (magic.set 5 88)) ∧
    load (magic ++ ([50, 48] ++ (trailer.set 2 88 ++ []))) =
      .error (.headerMismatch 16 trailer (trailer.set 2 88)) :=
  ⟨C2_header_mutation.1 (magic.set 5 88) ([50, 48] ++ trailer) (by decide) (by decide),
   C2_header_mutation.2 [50, 48] (trailer.set 2 88) [] 20
     (by decide) (by decide) (by decide) (by decide)⟩

/-- C3 counterexample: after a valid header, 257 complete zero records
followed by one extra byte give a body whose length is 1 mod 20 — the
claim's truncation premise — yet `load` fails with the character-code
overflow at record 256, not with a `TruncatedRecordError`. -/
theorem C3_counterexample :
    load (magic ++ ([50, 48] ++ (trailer ++ (bigChunks.flatten ++ [0])))) =
      .error (.charOverflow 256) ∧
    (bigChunks.flatten ++ [0]).length % 20 = 1 := by
  constructor
  · exact load_overflow [50, 48] 20 bigChunks [0] (by decide) (by decide)
      (by
        intro c hc
        rw [bigChunks, List.mem_replicate] at hc
        rw [hc.2, zeroChunk, List.length_replicate])
      (by rw [bigChunks, List.length_replicate]; omega)
  · rw [List.length_append, List.length_flatten, bigChunks, List.map_replicate,
        zeroChunk, List.length_replicate, List.sum_replicate]
    rfl

/-- C3 (amended): with a valid header and at most 256 complete records, a
final chunk of length 1 to 19 bytes fails with a `TruncatedRecordError`
carrying that chunk, and a body that is exactly complete records decodes
cleanly to the full table.  (Beyond 256 complete records the character
overflow of C9 fires first, so the bound is required.) -/
theorem C3_truncation :
    (∀ (ys : List Nat) (y : Int) (cs : List (List Nat)) (tl : List Nat),
      ys.length = 2 → pyIntParse ys = some y →
      (∀ c ∈ cs, c.length = 20) → cs.length ≤ 256 →
      tl ≠ [] → tl.length < 20 →
      load (magic ++ (ys ++ (trailer ++ (cs.flatten ++ tl)))) =
        .error (.truncatedRecord tl)) ∧
    (∀ (ys : List Nat) (y : Int) (cs : List (List Nat)),
      ys.length = 2 → pyIntParse ys = some y →
      (∀ c ∈ cs, c.length = 20) → cs.length ≤ 256 →
      load (magic ++ (ys ++ (trailer ++ cs.flatten))) =
        .ok (y, decodeChunks 0 cs)) := by
  constructor
  · intro ys y cs tl h2 hp hlen hn hne hlt
    rw [load_valid_header _ y _ h2 hp,
        readGlyphs_chunks cs 0 tl hlen (by omega),
        readGlyphs_short _ tl hne hlt]
    rfl
  · intro ys y cs h2 hp hlen hn
    rw [load_valid_header _ y _ h2 hp]
    have hb : cs.flatten = cs.flatten ++ [] := by simp
    rw [hb, readGlyphs_chunks cs 0 [] hlen (by omega)]
    simp [readGlyphs, Except.map]

/-- C3 witness: a lone 1-byte body is a truncated record, and a body of
exactly one complete zero record decodes cleanly. -/
theorem C3_truncation_witness :
    load (magic ++ ([50, 48] ++ (trailer ++ (([] : List (List Nat)).flatten ++ [7])))) =
      .error (.truncatedRecord [7]) ∧
    load (magic ++ ([50, 48] ++ (trailer ++ ([zeroChunk] : List (List Nat)).flatten))) =
      .ok (20, decodeChunks 0 [zeroChunk]) :=
  ⟨C3_truncation.1 [50, 48] 20 [] [7] (by decide) (by decide)
      (by intro c hc; simp at hc) (by decide) (by decide) (by decide),
   C3_truncation.2 [50, 48] 20 [zeroChunk] (by decide) (by decide)
      (by intro c hc; simp only [List.mem_singleton] at hc; simp [hc, zeroChunk])
      (by decide)⟩

/-- C4 counterexample: a valid header followed by 257 complete records —
within the claim's stated scope of "every N" — makes `load` raise the
character overflow instead of returning a 257-glyph table. -/
theorem C4_counterexample :
    load (magic ++ ([50, 48] ++ (trailer ++ bigChunks.flatten))) =
      .error (.charOverflow 256) ∧
    bigChunks.length = 257 := by
  constructor
  · have hb : bigChunks.flatten = bigChunks.flatten ++ [] := by simp
    rw [hb]
    exact load_overflow [50, 48] 20 bigChunks [] (by decide) (by decide)
      (by
        intro c hc
        rw [bigChunks, List.mem_replicate] at hc
        rw [hc.2, zeroChunk, List.length_replicate])
      (by rw [bigChunks, List.length_replicate]; omega)
  · rw [bigChunks, List.length_replicate]

/-- C4 (amended): with a valid header and `N ≤ 256` complete 20-byte
records, `load` returns a table of `N` glyphs in read order in which the
glyph at position `j` carries the positional character byte `j`, whatever
the bytes inside the records. -/
theorem C4_index_assignment (ys : List Nat) (y : Int) (cs : List (List Nat))
    (h2 : ys.length = 2) (hp : pyIntParse ys = some y)
    (hlen : ∀ c ∈ cs, c.length = 20) (hn : cs.length ≤ 256) :
    load (magic ++ (ys ++ (trailer ++ cs.flatten))) = .ok (y, decodeChunks 0 cs) ∧
    (decodeChunks 0 cs).length = cs.length ∧
    ∀ j (hj : j < (decodeChunks 0 cs).length),
      ((decodeChunks 0 cs).get ⟨j, hj⟩).character = [j] := by
  refine ⟨?_, decodeChunks_length cs 0,
    fun j hj => by simpa using decodeChunks_character cs 0 j hj⟩
  rw [load_valid_header _ y _ h2 hp]
  have hb : cs.flatten = cs.flatten ++ [] := by simp
  rw [hb, readGlyphs_chunks cs 0 [] hlen (by omega)]
  simp [readGlyphs, Except.map]

/-- C4 witness: a single all-ones record under ysize text `"30"` decodes
to a one-glyph table whose only glyph has character byte 0. -/
theorem C4_index_assignment_witness :
    load (magic ++ ([51, 48] ++ (trailer ++ ([List.replicate 20 1] : List (List Nat)).flatten))) =
      .ok (30, decodeChunks 0 [List.replicate 20 1]) ∧
    (decodeChunks 0 [List.replicate 20 1]).length = 1 ∧
    ((decodeChunks 0 [List.replicate 20 1]).get ⟨0, by decide⟩).character = [0] :=
  ⟨(C4_index_assignment [51, 48] 30 [List.replicate 20 1] (by decide) (by decide)
      (by intro c hc; simp only [List.mem_singleton] at hc; simp [hc])
      (by decide)).1,
   (C4_index_assignment [51, 48] 30 [List.replicate 20 1] (by decide) (by decide)
      (by intro c hc; simp only [List.mem_singleton] at hc; simp [hc])
      (by decide)).2.1,
   (C4_index_assignment [51, 48] 30 [List.replicate 20 1] (by decide) (by decide)
      (by intro c hc; simp only [List.mem_singleton] at hc; simp [hc])
      (by decide)).2.2 0 (by decide)⟩

/-- C5: the encoded record of an in-range glyph is exactly 20 bytes — the
ten fields in the fixed order `(dx, dy, dx0, dy0, dx1, dy1, sx0, sy0, sx1,
sy1)` (advance, then dest box, then src box), each as a big-endian signed
16-bit integer — and decoding a record regroups those same ten values into
the same fields (only the character byte is positional). -/
theorem C5_record_layout (g : Glyph) (h : (glyphFields g).all inRange16 = true) :
    (writeRecords [g]).1 =
      packInt16 g.delta.1 ++ packInt16 g.delta.2 ++
      packInt16 g.dst_bbox.1 ++ packInt16 g.dst_bbox.2.1 ++
      packInt16 g.dst_bbox.2.2.1 ++ packInt16 g.dst_bbox.2.2.2 ++
      packInt16 g.src_bbox.1 ++ packInt16 g.src_bbox.2.1 ++
      packInt16 g.src_bbox.2.2.1 ++ packInt16 g.src_bbox.2.2.2 ∧
    (writeRecords [g]).1.length = 20 ∧
    ∀ i : Nat, decodeRecord i (writeRecords [g]).1 = { g with character := [i] } := by
  have hw : writeRecords [g] = (packRecord g ++ [], true) := by
    simp [writeRecords, h]
  refine ⟨?_, ?_, fun i => ?_⟩
  · rw [hw]
    obtain ⟨c, ⟨d1, d2⟩, ⟨s0, s1, s2, s3⟩, ⟨t0, t1, t2, t3⟩⟩ := g
    simp [packRecord, glyphFields, List.append_assoc]
  · rw [hw]
    simp [packRecord_length]
  · rw [hw]
    simp only [List.append_nil]
    rw [decodeRecord, unpack10h_packRecord g h, mkGlyph_glyphFields]

/-- C5 witness: the layout and decode behaviour at the second example
glyph, decoded at index 7. -/
theorem C5_record_layout_witness :
    (writeRecords [exampleGlyph1]).1 =
      packInt16 exampleGlyph1.delta.1 ++ packInt16 exampleGlyph1.delta.2 ++
      packInt16 exampleGlyph1.dst_bbox.1 ++ packInt16 exampleGlyph1.dst_bbox.2.1 ++
      packInt16 exampleGlyph1.dst_bbox.2.2.1 ++ packInt16 exampleGlyph1.dst_bbox.2.2.2 ++
      packInt16 exampleGlyph1.src_bbox.1 ++ packInt16 exampleGlyph1.src_bbox.2.1 ++
      packInt16 exampleGlyph1.src_bbox.2.2.1 ++ packInt16 exampleGlyph1.src_bbox.2.2.2 ∧
    (writeRecords [exampleGlyph1]).1.length = 20 ∧
    decodeRecord 7 (writeRecords [exampleGlyph1]).1 =
      { exampleGlyph1 with character := [7] } :=
  ⟨(C5_record_layout exampleGlyph1 (by decide)).1,
   (C5_record_layout exampleGlyph1 (by decide)).2.1,
   (C5_record_layout exampleGlyph1 (by decide)).2.2 7⟩

/-- C7 counterexample: on a one-glyph font, index `-1` is outside the
claim's populated range `[0, 1)` yet `__getitem__` returns the last glyph
(Python negative indexing) instead of raising `IndexError`. -/
theorem C7_counterexample :
    exampleFont.getitem (-1) = .ok exampleGlyph0 ∧
    exampleFont.getitem (-1) ≠ .error .indexOutOfRange ∧
    ¬ (0 : Int) ≤ -1 := by
  refine ⟨by decide, by decide, by decide⟩

/-- C7 (amended): `Font[index]` follows Python list subscription — an
index in `[0, N)` returns the glyph at that index, an index in `[-N, -1]`
returns the glyph at `index + N`, and `IndexError` is raised exactly when
the index is below `-N` or at least `N`. -/
theorem C7_getitem :
    (∀ (f : PILFont) (index : Int) (h0 : 0 ≤ index)
        (h1 : index < (f.glyphs.length : Int)),
      f.getitem index = .ok (f.glyphs.get ⟨index.toNat, by omega⟩)) ∧
    (∀ (f : PILFont) (index : Int) (h0 : index < 0)
        (h1 : -(f.glyphs.length : Int) ≤ index),
      f.getitem index = .ok (f.glyphs.get ⟨(index + f.glyphs.length).toNat, by omega⟩)) ∧
    (∀ (f : PILFont) (index : Int),
      index < -(f.glyphs.length : Int) ∨ (f.glyphs.length : Int) ≤ index →
      f.getitem index = .error .indexOutOfRange) := by
  refine ⟨?_, ?_, ?_⟩
  · intro f index h0 h1
    have hpi : pyIndex f.glyphs.length index = index := by
      rw [pyIndex, if_neg (by omega)]
    rw [PILFont.getitem, dif_pos (by rw [hpi]; exact ⟨h0, h1⟩)]
    simp only [hpi]
  · intro f index h0 h1
    have hpi : pyIndex f.glyphs.length index = index + f.glyphs.length := by
      rw [pyIndex, if_pos h0]
    rw [PILFont.getitem, dif_pos (by rw [hpi]; constructor <;> omega)]
    simp only [hpi]
  · intro f index hor
    rcases hor with hlo | hhi
    · have hpi : pyIndex f.glyphs.length index = index + f.glyphs.length := by
        rw [pyIndex, if_pos (by omega)]
      rw [PILFont.getitem, dif_neg (by rw [hpi]; omega)]
    · have hpi : pyIndex f.glyphs.length index = index := by
        rw [pyIndex, if_neg (by omega)]
      rw [PILFont.getitem, dif_neg (by rw [hpi]; omega)]

/-- C7 witness: on the one-glyph example font, index 0 and index -1 both
return the glyph and index 5 raises. -/
theorem C7_getitem_witness :
    exampleFont.getitem 0 = .ok (exampleFont.glyphs.get ⟨(0 : Int).toNat, by decide⟩) ∧
    exampleFont.getitem (-1) =
      .ok (exampleFont.glyphs.get ⟨((-1 : Int) + exampleFont.glyphs.length).toNat, by decide⟩) ∧
    exampleFont.getitem 5 = .error .indexOutOfRange :=
  ⟨C7_getitem.1 exampleFont 0 (by decide) (by decide),
   C7_getitem.2.1 exampleFont (-1) (by decide) (by decide),
   C7_getitem.2.2 exampleFont 5 (Or.inr (by decide))⟩

/-- C6: encoding ysize 20 with the spec's two-glyph example table produces
exactly the stream `b"PILfont\n;;;;;;" + b"20" + b";\nDATA\n"` followed by
40 bytes of big-endian shorts, the write completes, and decoding that
exact stream reproduces ysize 20 and the two glyphs field-for-field. -/
theorem C6_example_scenario :
    metricsBytes 20 exampleTable = (exampleStream, true) ∧
    load exampleStream = .ok (20, exampleTable) := by
  constructor <;> decide

/-- C8: a stream made of a valid header (magic literal, parseable 2-byte
ysize text, trailing literal) followed by zero bytes decodes without error
to the parsed ysize and an empty glyph table. -/
theorem C8_empty_table (ys : List Nat) (y : Int)
    (h2 : ys.length = 2) (hp : pyIntParse ys = some y) :
    load (magic ++ (ys ++ trailer)) = .ok (y, []) := by
  have : magic ++ (ys ++ trailer) = magic ++ (ys ++ (trailer ++ [])) := by simp
  rw [this, load_valid_header ys y [] h2 hp]
  rfl

/-- C8 witness: the valid 23-byte header with ysize text `"20"` decodes to
ysize 20 and the empty table. -/
theorem C8_empty_table_witness : load (magic ++ ([50, 48] ++ trailer)) = .ok (20, []) :=
  C8_empty_table [50, 48] 20 (by decide) (by decide)

/-- C9: a valid header followed by more than 256 complete 20-byte records
makes `load` fail (the positional character code of the 257th record does
not fit one byte), and any successful `load` returns at most 256 glyphs. -/
theorem C9_char_overflow :
    (∀ (ys : List Nat) (y : Int) (cs : List (List Nat)),
      ys.length = 2 → pyIntParse ys = some y → (∀ c ∈ cs, c.length = 20) →
      256 < cs.length →
      load (magic ++ (ys ++ (trailer ++ cs.flatten))) = .error (.charOverflow 256)) ∧
    (∀ (s : List Nat) (y : Int) (gs : List Glyph),
      load s = .ok (y, gs) → gs.length ≤ 256) := by
  constructor
  · intro ys y cs h2 hp hlen hN
    have : magic ++ (ys ++ (trailer ++ cs.flatten)) =
        magic ++ (ys ++ (trailer ++ (cs.flatten ++ []))) := by simp
    rw [this]
    exact load_overflow ys y cs [] h2 hp hlen hN
  · intro s y gs h
    simp only [load] at h
    split at h
    · cases h
    · split at h
      · cases h
      · split at h
        · cases h
        · cases hr : readGlyphs 0 (List.drop 7 (List.drop 2 (List.drop 14 s))) with
          | error e =>
            rw [hr] at h
            simp only [Except.map] at h
            cases h
          | ok gs2 =>
            rw [hr] at h
            simp only [Except.map] at h
            cases h
            simpa using readGlyphs_ok_length 0 _ _ hr

/-- C9 witness: the stream with 257 zero records fails with the overflow
at index 256, and the empty-table load is within the 256-glyph bound. -/
theorem C9_char_overflow_witness :
    load (magic ++ ([50, 48] ++ (trailer ++ bigChunks.flatten))) =
      .error (.charOverflow 256) ∧
    ([] : List Glyph).length ≤ 256 :=
  ⟨C9_char_overflow.1 [50, 48] 20 bigChunks (by decide) (by decide)
      (by
        intro c hc
        rw [bigChunks, List.mem_replicate] at hc
        rw [hc.2, zeroChunk, List.length_replicate])
      (by rw [bigChunks, List.length_replicate]; omega),
   C9_char_overflow.2 (magic ++ ([50, 48] ++ (trailer ++ []))) 20 []
      (by decide)⟩

/-- C10: when `save` is given an image path, the atlas is persisted before
the metrics file is opened, so an atlas save failure propagates with the
file state — the metrics file in particular — unchanged. -/
theorem C10_atlas_error_preserves_metrics (f : PILFont) (fs : FS) :
    (f.saveFS true false fs).1.metricsFile = fs.metricsFile ∧
    f.saveFS true false fs = (fs, some .imageSaveError) := by
  constructor <;> rfl

end PILFontModel
